import Mathlib

/-!
Shallow embedding of the goway HTTP framework (repository Osmait/goway).

The repository has two source files: the full framework (CustomError,
ErrorHandlingMiddleware, LoggerMiddleware, ChainMiddlewares, GoWay,
GoWayContext) and an earlier variant of the same package in goway.go whose
Run registers the logger by the self-referential line
mux.Handle("/", LoggerMiddleware(mux)).

Handlers are modelled as trace transformers: running a handler on a request
yields the list of observable events it produced (log lines and response
writes, in order) together with an optional fault (a Go panic value).  A
fault aborts the rest of a handler body, but a middleware that recovers it
resumes normally, exactly as a deferred recover does in Go.
-/

namespace GoWaySpec

/-- An inbound HTTP request, reduced to the fields the framework reads. -/
structure Request where
  method : String
  path : String
deriving DecidableEq, Repr

/-- A Go panic value: either a structured pointer to CustomError carrying
(message, statusCode), or any other value, abstracted to its display text. -/
inductive Fault where
  | custom (message : String) (statusCode : Int)
  | other (detail : String)
deriving DecidableEq, Repr

/-- Observable events emitted while a request is handled, in program order:
logrus and log lines, and writes to the http.ResponseWriter. -/
inductive Event where
  | logReceived (method path : String)
  | logDuration (method path : String)
  | logError (message : String)
  | setHeader (name value : String)
  | writeHeader (status : Int)
  | writeBody (s : String)
  | tag (s : String)
deriving DecidableEq, Repr

/-- An http.Handler: on a request it produces its event trace and, when it
panics, the fault (events already emitted before the panic are kept). -/
def Handler : Type := Request → List Event × Option Fault

/-- A middleware, as in the source: func(http.Handler) http.Handler. -/
def Middleware : Type := Handler → Handler

/-- ChainMiddlewares (source lines 156-162): starts with the final handler
and applies each middleware in reverse index order, so the loop
for i := len-1 downto 0 is the left fold over the reversed list. -/
def ChainMiddlewares (middlewares : List Middleware) (final : Handler) : Handler :=
  middlewares.reverse.foldl (fun acc m => m acc) final

/-- Modelled from the spec: net/http's http.Error(w, msg, code) is an
external collaborator; per its documented behavior it sets the plain-text
content type headers, writes the status code, then writes msg followed by
a newline. -/
def httpError (msg : String) (code : Int) : List Event :=
  [Event.setHeader "Content-Type" "text/plain; charset=utf-8",
   Event.setHeader "X-Content-Type-Options" "nosniff",
   Event.writeHeader code,
   Event.writeBody (msg ++ "\n")]

/-- The switch in ErrorHandlingMiddleware's deferred recover: a *CustomError
is kept as is, any other panic value is replaced by
NewCustomError("Internal Server Error", 500).  Returns (Message, StatusCode). -/
def CustomErrorOf : Fault → String × Int
  | Fault.custom m s => (m, s)
  | Fault.other _ => ("Internal Server Error", 500)

/-- ErrorHandlingMiddleware (source lines 32-54): calls next; when next
panics, the deferred recover normalizes the fault via the switch, logs
log.Printf("Error: %v", customErr) — which prints customErr.Error(), the
normalized message — and then writes the response with
http.Error(w, customErr.Message, customErr.StatusCode).  The fault is
swallowed, so the wrapped handler never faults. -/
def ErrorHandlingMiddleware : Middleware := fun next req =>
  match next req with
  | (t, none) => (t, none)
  | (t, some err) =>
      let customErr := CustomErrorOf err
      (t ++ (Event.logError customErr.1 :: httpError customErr.1 customErr.2), none)

/-- LoggerMiddleware (source lines 56-79): logs the received request, calls
next, then logs the elapsed duration (the wall-clock value itself is real
time and is abstracted out of the event).  The duration line is not in a
defer, so a fault from next skips it and keeps unwinding. -/
def LoggerMiddleware : Middleware := fun next req =>
  match next req with
  | (t, none) =>
      (Event.logReceived req.method req.path :: t
        ++ [Event.logDuration req.method req.path], none)
  | (t, some f) => (Event.logReceived req.method req.path :: t, some f)

/-- A Go map assignment m[k] = v on a map kept as an association list with
unique keys: replace the binding if the key is present, else append. -/
def upsert {α : Type} (l : List (String × α)) (k : String) (v : α) : List (String × α) :=
  match l with
  | [] => [(k, v)]
  | (k0, v0) :: rest =>
      if k0 = k then (k, v) :: rest else (k0, v0) :: upsert rest k v

/-- Go map lookup m[k]. -/
def lookupKey {α : Type} (l : List (String × α)) (k : String) : Option α :=
  match l with
  | [] => none
  | (k0, v0) :: rest => if k0 = k then some v0 else lookupKey rest k

/-- The GoWay server struct: the route table and the middleware list.  The
route handler type is a parameter; the source stores GoWayHandlerFunc values
and never inspects them while registering, so the claims about the table
hold for any handler type. -/
structure GoWay (R : Type) where
  routes : List (String × R)
  middlewares : List Middleware

/-- Use (source lines 152-154): appends the middleware to the list. -/
def Use {R : Type} (g : GoWay R) (m : Middleware) : GoWay R :=
  { g with middlewares := g.middlewares ++ [m] }

/-- NewGoWay (source lines 91-98): fresh empty route table, then
Use(LoggerMiddleware); Use(ErrorHandlingMiddleware). -/
def NewGoWay (R : Type) : GoWay R :=
  Use (Use { routes := [], middlewares := [] } LoggerMiddleware) ErrorHandlingMiddleware

/-- The composite route key fmt.Sprintf("%s %s", method, pattern) used by
Handle (source lines 140-142). -/
def routeKey (method pattern : String) : String :=
  method ++ " " ++ pattern

/-- Handle (source lines 140-142): g.routes[key] = handler. -/
def Handle {R : Type} (g : GoWay R) (method pattern : String) (h : R) : GoWay R :=
  { g with routes := upsert g.routes (routeKey method pattern) h }

/-- GET sugar (source lines 144-146). -/
def GET {R : Type} (g : GoWay R) (pattern : String) (h : R) : GoWay R :=
  Handle g "GET" pattern h

/-- POST sugar (source lines 148-150). -/
def POST {R : Type} (g : GoWay R) (pattern : String) (h : R) : GoWay R :=
  Handle g "POST" pattern h

/-- Registering a list of middlewares one after the other with Use. -/
def useAll {R : Type} (g : GoWay R) (ms : List Middleware) : GoWay R :=
  ms.foldl Use g

/-- An instrumentation middleware used to observe execution order: it emits
the event tag enter before calling next and the event tag leave after next
returns; a fault from next skips the leave tag and keeps unwinding. -/
def probeMw (enter leave : String) : Middleware := fun next req =>
  match next req with
  | (t, none) => (Event.tag enter :: t ++ [Event.tag leave], none)
  | (t, some f) => (Event.tag enter :: t, some f)

/-- A terminal handler that only records that it ran. -/
def probeHandler (l : String) : Handler := fun _ => ([Event.tag l], none)

/- Helper lemmas on the chain. -/

theorem chain_nil (final : Handler) : ChainMiddlewares [] final = final :=
  rfl

theorem chain_cons (m : Middleware) (ms : List Middleware) (final : Handler) :
    ChainMiddlewares (m :: ms) final = m (ChainMiddlewares ms final) := by
  simp [ChainMiddlewares, List.reverse_cons, List.foldl_append]

/-- C1: ChainMiddlewares composes the list with position 0 outermost:
the empty chain is the terminal handler, a cons applies its head around the
chained tail — hence [m0, ..., mn-1] around H is m0(m1(...mn-1(H)...)) —
and with two pre/post probes around a probe handler the observed order is
m0-pre, m1-pre, H, m1-post, m0-post. -/
theorem chainMiddlewares_composes_outermost_first
    (m : Middleware) (ms : List Middleware) (H : Handler) :
    ChainMiddlewares [] H = H
    ∧ ChainMiddlewares (m :: ms) H = m (ChainMiddlewares ms H)
    ∧ ∀ req : Request,
        ChainMiddlewares [probeMw "m0-pre" "m0-post", probeMw "m1-pre" "m1-post"]
          (probeHandler "H") req
        = ([Event.tag "m0-pre", Event.tag "m1-pre", Event.tag "H",
            Event.tag "m1-post", Event.tag "m0-post"], none) := by
  refine ⟨chain_nil H, chain_cons m ms H, ?_⟩
  intro req
  rfl

/- Error boundary: the wrapped handler never faults. -/

theorem errorBoundary_no_fault (next : Handler) (req : Request) :
    (ErrorHandlingMiddleware next req).2 = none := by
  unfold ErrorHandlingMiddleware
  rcases h : next req with ⟨t, f⟩
  cases f <;> simp

/-- Written from the amended claim's words, to be compared with the source
middleware: a result with no fault passes through; a structured fault
(message m, status s) yields a log line for m followed by the http.Error
write of m with status s; any other fault yields the log line and write of
the fixed normalized text "Internal Server Error" with status 500, the
original detail appearing in neither the log nor the writes.  In every
caught case the log event precedes the write events. -/
def recoverSpec : List Event × Option Fault → List Event × Option Fault
  | (t, none) => (t, none)
  | (t, some (Fault.custom m s)) =>
      (t ++ (Event.logError m :: httpError m s), none)
  | (t, some (Fault.other _)) =>
      (t ++ (Event.logError "Internal Server Error"
        :: httpError "Internal Server Error" 500), none)

/-- C2 (amended): ErrorHandlingMiddleware refines recoverSpec: structured
faults produce exactly their status and message, any other fault is
normalized to 500 "Internal Server Error", an error log line is emitted
before the error response is written, and the output for an unstructured
fault is independent of the fault's detail, so that detail is never sent to
the client. -/
theorem errorBoundary_translates (next : Handler) (req : Request) :
    ErrorHandlingMiddleware next req = recoverSpec (next req)
    ∧ ∀ (t : List Event) (d1 d2 : String),
        ErrorHandlingMiddleware (fun _ => (t, some (Fault.other d1))) req
        = ErrorHandlingMiddleware (fun _ => (t, some (Fault.other d2))) req := by
  constructor
  · unfold ErrorHandlingMiddleware recoverSpec CustomErrorOf
    rcases h : next req with ⟨t, f⟩
    rcases f with _ | f
    · rfl
    · cases f <;> rfl
  · intro t d1 d2
    rfl

/-- The client- or operator-visible text of an event: the rendered log line,
header, or body chunk. -/
def eventText : Event → String
  | Event.logReceived m p => "Received request: " ++ m ++ " " ++ p
  | Event.logDuration m p => "Request " ++ m ++ " " ++ p ++ " took"
  | Event.logError m => "Error: " ++ m
  | Event.setHeader n v => n ++ ": " ++ v
  | Event.writeHeader s => toString s
  | Event.writeBody b => b
  | Event.tag s => s

/-- Whether the first character list is a leading segment of the second. -/
def leadingChars : List Char → List Char → Bool
  | [], _ => true
  | _ :: _, [] => false
  | a :: as, b :: bs => a == b && leadingChars as bs

/-- Whether needle occurs as a substring of hay. -/
def strHas (hay needle : String) : Bool :=
  (List.range (hay.length + 1)).any (fun i => leadingChars needle.data (hay.data.drop i))

/-- C2 counterexample: for the unstructured fault with detail "boom", the
events added by ErrorHandlingMiddleware are exactly the log line
"Error: Internal Server Error" followed by the 500 response writes, and no
event of the whole trace mentions "boom": the fault itself is never logged,
only the normalized error, refuting the claim that the fault is logged
before the error response is written. -/
theorem errorBoundary_drops_fault_detail :
    (ErrorHandlingMiddleware (fun _ => ([], some (Fault.other "boom")))
      { method := "GET", path := "/x" }).1
      = Event.logError "Internal Server Error"
        :: httpError "Internal Server Error" 500
    ∧ ((ErrorHandlingMiddleware (fun _ => ([], some (Fault.other "boom")))
        { method := "GET", path := "/x" }).1.all
        (fun e => !(strHas (eventText e) "boom"))) = true := by
  exact ⟨rfl, by decide⟩

/- C3: default middlewares and the logger lines. -/

theorem useAll_middlewares {R : Type} (g : GoWay R) (ms : List Middleware) :
    (useAll g ms).middlewares = g.middlewares ++ ms := by
  induction ms generalizing g with
  | nil => simp [useAll]
  | cons m rest ih =>
      simp [useAll, List.foldl_cons] at ih ⊢
      rw [ih (Use g m)]
      simp [Use]

/-- C3: NewGoWay installs exactly [LoggerMiddleware, ErrorHandlingMiddleware]
in that order, Use appends at the end of the list, and for any user
middlewares registered afterwards, any terminal handler and any request the
composed chain emits the logger's received line first and its duration line
last with no escaping fault — even when the handler or a user middleware
faults, since the error boundary sits inside the logger and recovers. -/
theorem newGoWay_default_chain {R : Type} :
    (NewGoWay R).middlewares = [LoggerMiddleware, ErrorHandlingMiddleware]
    ∧ (∀ (g : GoWay R) (m : Middleware),
        (Use g m).middlewares = g.middlewares ++ [m])
    ∧ ∀ (userMws : List Middleware) (H : Handler) (req : Request),
        ∃ t : List Event,
          ChainMiddlewares (useAll (NewGoWay R) userMws).middlewares H req
          = (Event.logReceived req.method req.path :: t
              ++ [Event.logDuration req.method req.path], none) := by
  refine ⟨rfl, fun g m => rfl, ?_⟩
  intro userMws H req
  have hmw : (useAll (NewGoWay R) userMws).middlewares
      = LoggerMiddleware :: ErrorHandlingMiddleware :: userMws := by
    rw [useAll_middlewares]
    rfl
  rw [hmw, chain_cons, chain_cons]
  set inner := ChainMiddlewares userMws H with hinner
  refine ⟨(ErrorHandlingMiddleware inner req).1, ?_⟩
  have hpair : ErrorHandlingMiddleware inner req
      = ((ErrorHandlingMiddleware inner req).1, none) := by
    rw [← errorBoundary_no_fault inner req]
  unfold LoggerMiddleware
  rw [hpair]

/- Route table lemmas. -/

theorem lookupKey_upsert_self {α : Type} (l : List (String × α)) (k : String) (v : α) :
    lookupKey (upsert l k v) k = some v := by
  induction l with
  | nil => simp [upsert, lookupKey]
  | cons p rest ih =>
      rcases p with ⟨k0, v0⟩
      by_cases h : k0 = k
      · simp [upsert, h, lookupKey]
      · simp [upsert, h, lookupKey, ih]

theorem keys_upsert {α : Type} (l : List (String × α)) (k : String) (v : α) :
    (upsert l k v).map Prod.fst
    = if k ∈ l.map Prod.fst then l.map Prod.fst else l.map Prod.fst ++ [k] := by
  induction l with
  | nil => simp [upsert]
  | cons p rest ih =>
      rcases p with ⟨k0, v0⟩
      by_cases h : k0 = k
      · subst h
        simp [upsert]
      · have hne : ¬(k = k0) := fun e => h e.symm
        simp only [upsert, if_neg h, List.map_cons, List.mem_cons, ih]
        by_cases hmem : k ∈ rest.map Prod.fst
        · simp [hmem, hne]
        · simp [hmem, hne]

theorem keys_nodup_upsert {α : Type} {l : List (String × α)} {k : String} {v : α}
    (hnd : (l.map Prod.fst).Nodup) : ((upsert l k v).map Prod.fst).Nodup := by
  rw [keys_upsert]
  by_cases hmem : k ∈ l.map Prod.fst
  · simpa [hmem] using hnd
  · simp only [if_neg hmem]
    rw [List.nodup_append]
    refine ⟨hnd, List.nodup_singleton k, ?_⟩
    intro a ha hb
    rw [List.mem_singleton] at hb
    subst hb
    exact hmem ha

theorem filter_key_eq_nil {α : Type} {l : List (String × α)} {k : String}
    (h : k ∉ l.map Prod.fst) :
    l.filter (fun p => p.1 = k) = [] := by
  induction l with
  | nil => rfl
  | cons p rest ih =>
      rcases p with ⟨k0, v0⟩
      simp only [List.map_cons, List.mem_cons, not_or] at h
      have hd : (decide ((k0, v0).1 = k)) = false := by
        simp only [decide_eq_false_iff_not]
        exact fun e => h.1 e.symm
      rw [List.filter_cons, hd]
      simp only [Bool.false_eq_true, if_false]
      exact ih h.2

theorem filter_upsert_self {α : Type} {l : List (String × α)} {k : String} {v : α}
    (hnd : (l.map Prod.fst).Nodup) :
    (upsert l k v).filter (fun p => p.1 = k) = [(k, v)] := by
  induction l with
  | nil => simp [upsert, List.filter_cons]
  | cons p rest ih =>
      rcases p with ⟨k0, v0⟩
      simp only [List.map_cons, List.nodup_cons] at hnd
      by_cases h : k0 = k
      · subst h
        simp [upsert, List.filter_cons, filter_key_eq_nil hnd.1]
      · have hd : (decide ((k0, v0).1 = k)) = false := by
          simp only [decide_eq_false_iff_not]
          exact h
        simp only [upsert, if_neg h, List.filter_cons, hd]
        simp only [Bool.false_eq_true, if_false]
        exact ih hnd.2

/-- C6: registering twice under the same (method, pattern) leaves the table
mapping the composite key to the second handler only: lookup finds h2, and
the bindings whose key equals routeKey method pattern are exactly
[(routeKey method pattern, h2)]. -/
theorem handle_last_registration_wins {R : Type} (g : GoWay R)
    (method pattern : String) (h1 h2 : R)
    (hnd : (g.routes.map Prod.fst).Nodup) :
    lookupKey ((Handle (Handle g method pattern h1) method pattern h2).routes)
      (routeKey method pattern) = some h2
    ∧ ((Handle (Handle g method pattern h1) method pattern h2).routes).filter
        (fun p => p.1 = routeKey method pattern)
      = [(routeKey method pattern, h2)] := by
  constructor
  · simp [Handle]
    exact lookupKey_upsert_self _ _ _
  · simp [Handle]
    exact filter_upsert_self (keys_nodup_upsert hnd)

/-- C6 witness at a concrete server: a fresh server, two handlers 1 and 2
registered under ("GET", "/x"); the table maps "GET /x" to 2 only. -/
theorem handle_last_registration_wins_witness :
    (((NewGoWay Nat).routes.map Prod.fst).Nodup)
    ∧ (lookupKey ((Handle (Handle (NewGoWay Nat) "GET" "/x" 1) "GET" "/x" 2).routes)
        (routeKey "GET" "/x") = some 2
      ∧ ((Handle (Handle (NewGoWay Nat) "GET" "/x" 1) "GET" "/x" 2).routes).filter
          (fun p => p.1 = routeKey "GET" "/x")
        = [(routeKey "GET" "/x", 2)]) :=
  ⟨by simp [NewGoWay, Use], handle_last_registration_wins (NewGoWay Nat) "GET" "/x" 1 2
    (by simp [NewGoWay, Use])⟩

/-- C10: the composite key "method pattern" is not injective: the distinct
pairs ("GET /a", "b") and ("GET", "/a b") share the key "GET /a b", so the
second registration silently replaces the first even though the two
registrations name different routes. -/
theorem routeKey_not_injective {R : Type} (h1 h2 : R) :
    routeKey "GET /a" "b" = routeKey "GET" "/a b"
    ∧ ("GET /a", "b") ≠ (("GET", "/a b") : String × String)
    ∧ (Handle (Handle (NewGoWay R) "GET /a" "b" h1) "GET" "/a b" h2).routes
      = [("GET /a b", h2)] := by
  refine ⟨rfl, by decide, ?_⟩
  show upsert (upsert [] (routeKey "GET /a" "b") h1) (routeKey "GET" "/a b") h2
      = [("GET /a b", h2)]
  have hk1 : routeKey "GET /a" "b" = "GET /a b" := rfl
  have hk2 : routeKey "GET" "/a b" = "GET /a b" := rfl
  rw [hk1, hk2]
  simp [upsert]

/- Request dispatch under Run. -/

/-- Modelled from the spec: http.ServeMux is an external collaborator; its
default handler for a request matching no registered pattern is
http.NotFound, which calls http.Error(w, "404 page not found", 404). -/
def notFoundHandler : Handler := fun _ => (httpError "404 page not found" 404, none)

/-- The ServeMux key a request is resolved against: the framework registers
patterns of the form "METHOD /path" (built by routeKey), which a request
matches exactly when its method and path equal the pattern's. -/
def muxKey (req : Request) : String :=
  req.method ++ " " ++ req.path

/-- Per-request dispatch of Run in the full framework source (lines 101-119):
every registered pattern is bound to ChainMiddlewares(g.middlewares, route
handler), so a matching request runs the chained handler, and a request
matching no pattern falls to the mux's default NotFound handler, which is
not wrapped by any middleware.  Route handlers receive a fresh context built
from (w, r); interp stands for that wrapping. -/
def runServe {R : Type} (g : GoWay R) (interp : R → Handler) (req : Request) :
    List Event × Option Fault :=
  match lookupKey g.routes (muxKey req) with
  | some h => ChainMiddlewares g.middlewares (interp h) req
  | none => notFoundHandler req

/-- Per-request dispatch of Run in goway.go (lines 56-66): that Run first
registers mux.Handle("/", LoggerMiddleware(mux)), so a request matching no
registered route falls to the "/" pattern, whose handler logs the request
and then re-enters the same mux with the same request.  The fuel argument
counts how many re-entries the model is willing to unfold; none models a
dispatch that has not terminated within the given fuel. -/
def gowayGoServe {R : Type} (routes : List (String × R)) (interp : R → Handler) :
    Nat → Request → Option (List Event × Option Fault)
  | 0, _ => none
  | fuel + 1, req =>
    match lookupKey routes (muxKey req) with
    | some h => some (interp h req)
    | none =>
      match gowayGoServe routes interp fuel req with
      | none => none
      | some (t, none) =>
          some (Event.logReceived req.method req.path :: t
            ++ [Event.logDuration req.method req.path], none)
      | some (t, some f) =>
          some (Event.logReceived req.method req.path :: t, some f)

/-- C5: on an unmatched request, goway.go's Run never produces any response
no matter how many re-entries are unfolded — the catch-all logger handler
re-dispatches into the same mux forever — while the full framework's Run
yields the ServeMux default Not-Found response (status 404) with no fault. -/
theorem unmatched_request_recursion_bug :
    (∀ fuel : Nat,
      gowayGoServe ([] : List (String × Nat)) (fun _ => fun _ => ([], none)) fuel
        { method := "GET", path := "/missing" } = none)
    ∧ runServe (NewGoWay Nat) (fun _ => fun _ => ([], none))
        { method := "GET", path := "/missing" }
      = (httpError "404 page not found" 404, none) := by
  constructor
  · intro fuel
    induction fuel with
    | zero => rfl
    | succ n ih =>
        simp only [gowayGoServe, lookupKey, ih]
  · rfl

/- Server lifecycle: cancellation and graceful shutdown. -/

/-- Outcome of srv.Shutdown: nil, or the shutdown context's deadline error. -/
inductive ShutdownOutcome where
  | ok
  | deadlineExceeded
deriving DecidableEq, Repr

/-- What the lifecycle reports once Run returns after cancellation. -/
structure ShutdownReport where
  outcome : ShutdownOutcome
  acceptingNew : Bool
  terminated : List Nat
deriving DecidableEq, Repr

/-- One second of draining: every in-flight request's remaining time drops
by one and the finished ones leave the set. -/
def drainStep (inflight : List Nat) : List Nat :=
  (inflight.map (fun r => r - 1)).filter (fun r => 0 < r)

/-- Draining for a whole number of seconds. -/
def drainFor : Nat → List Nat → List Nat
  | 0, l => l
  | n + 1, l => drainFor n (drainStep l)

/-- Modelled from the spec: http.Server.Shutdown is an external
collaborator; per its documented contract it stops the server from
accepting new connections, waits for in-flight requests to drain, and
returns nil if they all finish before the supplied context's deadline,
otherwise the context's deadline-exceeded error, the stragglers being cut
off when the process tears the server down.  Time is discretized to whole
seconds; each in-flight request is its remaining seconds of work. -/
def serverShutdown (deadlineSeconds : Nat) (inflight : List Nat) : ShutdownReport :=
  let rest := drainFor deadlineSeconds inflight
  { outcome := if rest = [] then ShutdownOutcome.ok else ShutdownOutcome.deadlineExceeded
  , acceptingNew := false
  , terminated := rest }

/-- The grace period Run passes to Shutdown:
context.WithTimeout(context.Background(), 5*time.Second) (source line 131). -/
def gracePeriodSeconds : Nat := 5

/-- What Run does once the caller's cancellation context fires (source lines
128-136): build the 5-second timeout context, log the shutdown line, and
return srv.Shutdown's result. -/
def RunOnCancel (inflight : List Nat) : ShutdownReport :=
  serverShutdown gracePeriodSeconds inflight

theorem pos_drainStep {l : List Nat} {x : Nat} (hx : x ∈ drainStep l) : 0 < x := by
  simp only [drainStep, List.mem_filter, decide_eq_true_eq] at hx
  exact hx.2

theorem drainFor_eq_nil {n : Nat} {l : List Nat} (hpos : ∀ r ∈ l, 0 < r) :
    drainFor n l = [] ↔ ∀ r ∈ l, r ≤ n := by
  induction n generalizing l with
  | zero =>
      simp only [drainFor]
      constructor
      · intro h
        subst h
        intro r hr
        cases hr
      · intro h
        cases l with
        | nil => rfl
        | cons a t =>
            have h1 := h a (List.mem_cons_self a t)
            have h2 := hpos a (List.mem_cons_self a t)
            omega
  | succ n ih =>
      simp only [drainFor]
      rw [ih (fun r hr => pos_drainStep hr)]
      constructor
      · intro h r hr
        have h1 := hpos r hr
        by_cases h2 : r = 1
        · omega
        · have h3 : r - 1 ∈ drainStep l := by
            simp only [drainStep, List.mem_filter, List.mem_map, decide_eq_true_eq]
            exact ⟨⟨r, hr, rfl⟩, by omega⟩
          have := h (r - 1) h3
          omega
      · intro h x hx
        simp only [drainStep, List.mem_filter, List.mem_map, decide_eq_true_eq] at hx
        rcases hx with ⟨⟨r, hr, hrx⟩, _⟩
        have := h r hr
        omega

/-- C4: once the cancellation context fires, Run (i) has the server stop
accepting new connections, (ii) returns nil exactly when every in-flight
request drains within the 5-second grace period, and (iii) otherwise the
requests still unfinished at the deadline are the ones cut off, so the
forcibly-terminated set is empty exactly when the outcome is nil. -/
theorem run_graceful_shutdown (inflight : List Nat)
    (hpos : ∀ r ∈ inflight, 0 < r) :
    gracePeriodSeconds = 5
    ∧ (RunOnCancel inflight).acceptingNew = false
    ∧ ((RunOnCancel inflight).outcome = ShutdownOutcome.ok
        ↔ ∀ r ∈ inflight, r ≤ gracePeriodSeconds)
    ∧ ((RunOnCancel inflight).terminated = []
        ↔ (RunOnCancel inflight).outcome = ShutdownOutcome.ok) := by
  have hnil := @drainFor_eq_nil gracePeriodSeconds inflight hpos
  refine ⟨rfl, rfl, ?_, ?_⟩
  · rw [← hnil]
    simp only [RunOnCancel, serverShutdown]
    by_cases h : drainFor gracePeriodSeconds inflight = []
    · simp only [if_pos h]
      simp [h]
    · simp only [if_neg h]
      constructor
      · intro hc
        cases hc
      · intro hc
        exact absurd hc h
  · simp only [RunOnCancel, serverShutdown]
    by_cases h : drainFor gracePeriodSeconds inflight = []
    · simp only [if_pos h]
      simp [h]
    · simp only [if_neg h]
      constructor
      · intro hc
        exact absurd hc h
      · intro hc
        cases hc

/-- C4 witness: with in-flight requests needing 3 and 5 more seconds, all
positive, shutdown drains in time: the outcome is nil and nothing is cut off. -/
theorem run_graceful_shutdown_witness :
    (∀ r ∈ [3, 5], 0 < r)
    ∧ (gracePeriodSeconds = 5
      ∧ (RunOnCancel [3, 5]).acceptingNew = false
      ∧ ((RunOnCancel [3, 5]).outcome = ShutdownOutcome.ok
          ↔ ∀ r ∈ [3, 5], r ≤ gracePeriodSeconds)
      ∧ ((RunOnCancel [3, 5]).terminated = []
          ↔ (RunOnCancel [3, 5]).outcome = ShutdownOutcome.ok)) :=
  ⟨by decide, run_graceful_shutdown [3, 5] (by decide)⟩

/- GoWayContext response writing. -/

/-- The state of an http.ResponseWriter, per its documented contract: header
changes are staged in pending and take effect only if made before the
status line is sent; the first WriteHeader snapshots the pending headers
together with the status, later calls are ignored; a Write before any
WriteHeader implicitly sends status 200 first. -/
structure ResponseWriter where
  pending : List (String × String)
  sent : Option (List (String × String) × Int)
  body : String
deriving DecidableEq, Repr

/-- w.Header().Set(key, value): replaces the staged value for the key. -/
def headerSet (w : ResponseWriter) (k v : String) : ResponseWriter :=
  { w with pending := upsert w.pending k v }

/-- w.WriteHeader(status). -/
def writeHeaderW (w : ResponseWriter) (status : Int) : ResponseWriter :=
  match w.sent with
  | some _ => w
  | none => { w with sent := some (w.pending, status) }

/-- w.Write(chunk), as performed by the JSON encoder. -/
def writeBodyW (w : ResponseWriter) (chunk : String) : ResponseWriter :=
  match w.sent with
  | some _ => { w with body := w.body ++ chunk }
  | none => { w with sent := some (w.pending, 200), body := w.body ++ chunk }

/-- GoWayContext.JSON (source lines 191-195): sets Content-Type to
application/json, writes the status, then encodes the payload onto the
writer.  Serialization is an external collaborator, abstracted by encode;
json.Encoder.Encode appends a newline after the serialized value. -/
def ContextJSON {A : Type} (encode : A → String) (w : ResponseWriter)
    (status : Int) (data : A) : ResponseWriter :=
  writeBodyW (writeHeaderW (headerSet w "Content-Type" "application/json") status)
    (encode data ++ "\n")

/-- C9: on a writer whose status line has not been sent yet, JSON sends
exactly the given status, the headers sent with it carry
Content-Type: application/json — possible only because the header is set
before the status is written — and the body receives the serialized
payload. -/
theorem json_sets_content_type_then_status {A : Type} (encode : A → String)
    (w : ResponseWriter) (status : Int) (data : A)
    (hw : w.sent = none) :
    (ContextJSON encode w status data).sent
      = some (upsert w.pending "Content-Type" "application/json", status)
    ∧ lookupKey (upsert w.pending "Content-Type" "application/json") "Content-Type"
      = some "application/json"
    ∧ (ContextJSON encode w status data).body = w.body ++ (encode data ++ "\n") := by
  refine ⟨?_, lookupKey_upsert_self _ _ _, ?_⟩
  · simp [ContextJSON, headerSet, writeHeaderW, writeBodyW, hw]
  · simp [ContextJSON, headerSet, writeHeaderW, writeBodyW, hw]

/-- C9 witness on a fresh writer with a concrete encoder. -/
theorem json_sets_content_type_then_status_witness :
    (({ pending := [], sent := none, body := "" } : ResponseWriter).sent = none)
    ∧ ((ContextJSON (fun _ : Nat => "42")
          { pending := [], sent := none, body := "" } 201 7).sent
        = some (upsert [] "Content-Type" "application/json", 201)
      ∧ lookupKey (upsert [] "Content-Type" "application/json") "Content-Type"
        = some "application/json"
      ∧ (ContextJSON (fun _ : Nat => "42")
          { pending := [], sent := none, body := "" } 201 7).body
        = "" ++ ("42" ++ "\n")) :=
  ⟨rfl, json_sets_content_type_then_status (fun _ : Nat => "42")
    { pending := [], sent := none, body := "" } 201 7 rfl⟩

/- GoWayContext body decoding. -/

/-- The error value GoWayContext.Body returns: the read error propagated
from io.ReadAll, or the decode error from json.Unmarshal. -/
inductive DecodeError where
  | readFailed (e : String)
  | unmarshalFailed (msg : String)
deriving DecidableEq, Repr

/-- Modelled from the spec: encoding/json is an external collaborator; its
Unmarshal fails on empty input with the decode error
"unexpected end of JSON input" for every target shape, before the target is
touched.  Parsing of non-empty input is abstracted by the parse parameter,
which stands for the target shape's decoding. -/
def jsonUnmarshal (parse : String → Except DecodeError Unit) (input : String) :
    Except DecodeError Unit :=
  if input = "" then Except.error (DecodeError.unmarshalFailed "unexpected end of JSON input")
  else parse input

/-- What a call to GoWayContext.Body leaves behind: the returned value and
whether the request body was closed. -/
structure BodyOutcome where
  result : Except DecodeError Unit
  bodyClosed : Bool
deriving Repr

/-- GoWayContext.Body (source lines 181-188), path by path:
body, err := io.ReadAll(c.r.Body); if err != nil \x7b return err \x7d;
defer c.r.Body.Close(); return json.Unmarshal(body, v).
The defer is registered only after the ReadAll error check, so the
read-failure path returns before any Close is arranged, while both
Unmarshal paths run the deferred Close. -/
def ContextBody (parse : String → Except DecodeError Unit)
    (readAll : Except String String) : BodyOutcome :=
  match readAll with
  | Except.error e => { result := Except.error (DecodeError.readFailed e), bodyClosed := false }
  | Except.ok bytes => { result := jsonUnmarshal parse bytes, bodyClosed := true }

/-- C7: Body closes the request body when reading succeeds — whether
decoding then succeeds or fails — but on the read-failure path it returns
the error without ever closing the body, because the deferred Close is
registered after the early return. -/
theorem body_skips_close_on_read_error
    (parse : String → Except DecodeError Unit) :
    (ContextBody parse (Except.error "connection reset")).bodyClosed = false
    ∧ (ContextBody parse (Except.error "connection reset")).result
      = Except.error (DecodeError.readFailed "connection reset")
    ∧ ∀ bytes : String, (ContextBody parse (Except.ok bytes)).bodyClosed = true := by
  exact ⟨rfl, rfl, fun bytes => rfl⟩

/-- C8: reading an empty body succeeds with zero bytes, and Body then
returns the Unmarshal decode error for empty input rather than succeeding,
for every target shape; the body is closed on this path. -/
theorem body_empty_input_decode_error
    (parse : String → Except DecodeError Unit) :
    ContextBody parse (Except.ok "")
      = { result := Except.error (DecodeError.unmarshalFailed "unexpected end of JSON input")
        , bodyClosed := true } := by
  rfl

end GoWaySpec
